import Mathlib

/-!
Verification development for `src/soft_eng_tools/github_user_repo_stats.py`
(the AMP_toolbox GitHub user/repo statistics script).

Modelling notes.
* Timestamps (`review.submitted_at`, `pr.merged_at`) appear in the script only
  through `astimezone(denver_time)` followed by `.year` / `.month` access.  We
  therefore model each timestamp by its (year, month) pair *in the reference
  timezone* (`DateYM`); the timezone conversion itself is the external
  `zoneinfo` library and is outside the embedding.
* The paginated GitHub objects (`pulls`, `pr.get_reviews()`) are modelled as
  Lean lists in the order the API delivers them.
* The accumulating loop of `main_script` (lines 137-211 of the source) is
  embedded as `processPulls` / `processReviews`, explicit state-passing
  versions of the nested `for` loops with their `break` / `continue` /
  `stop_loop` control flow.
* `int(...)` applied to a digit string is `pyIntDigits`; Python slices
  `s[a:b]` and `s[a:]` are `pySlice` / `pySliceFrom`.
-/

/-- A (year, month) pair of a timestamp already converted to the reference
timezone (America/Denver in the script). -/
structure DateYM where
  year : Int
  month : Int
deriving DecidableEq, Repr

/-- A pull-request review as the script reads it: `review.user.login`,
`review.state`, and `review.submitted_at` (as its reference-timezone
(year, month)). -/
structure Review where
  reviewerLogin : String
  state : String
  submittedAt : DateYM
deriving DecidableEq, Repr

/-- A pull request as the script reads it: `pr.number`, `pr.merged`,
`pr.merged_at` (as its reference-timezone (year, month); only meaningful when
`merged` is true), `pr.additions`, `pr.deletions`, and the review sequence
returned by `pr.get_reviews()`. -/
structure PullRequest where
  number : Nat
  merged : Bool
  mergedAt : DateYM
  additions : Nat
  deletions : Nat
  reviews : List Review
deriving DecidableEq, Repr

/-- The accumulator of the script: `num_reviewed_prs`, `num_additions`,
`num_deletions`, `max_pr_additions`, `max_pr_num`. -/
structure Accumulator where
  numReviewedPrs : Nat
  numAdditions : Nat
  numDeletions : Nat
  maxPrAdditions : Nat
  maxPrNum : Nat
deriving DecidableEq, Repr

/-- All five counters start at zero (source lines 137-144). -/
def initAcc : Accumulator :=
  { numReviewedPrs := 0, numAdditions := 0, numDeletions := 0,
    maxPrAdditions := 0, maxPrNum := 0 }

/-- The in-range test of the review loop (source lines 186-189):
`(submit_date.year > start_year) or (submit_date.year == start_year and
submit_date.month >= start_month)`. -/
def dateQualifies (d cutoff : DateYM) : Bool :=
  decide (d.year > cutoff.year ∨ (d.year = cutoff.year ∧ d.month ≥ cutoff.month))

/-- The merged-before-cutoff test of the PR loop (source lines 164-167):
`(merge_date.year < start_year) or (merge_date.year == start_year and
merge_date.month < start_month)`. -/
def mergedBeforeCutoff (m cutoff : DateYM) : Bool :=
  decide (m.year < cutoff.year ∨ (m.year = cutoff.year ∧ m.month < cutoff.month))

/-- The identity/state filter of the review loop (source lines 182-183):
`(review.user.login == username) and (review.state != "COMMENTED")`. -/
def reviewMatches (username : String) (r : Review) : Bool :=
  decide (r.reviewerLogin = username ∧ r.state ≠ "COMMENTED")

/-- The body of the qualifying branch (source lines 190-202): increment the
reviewed-PR counter, add the PR additions and deletions, and update the
maximum-additions pair on a strict increase. -/
def countReview (acc : Accumulator) (pr : PullRequest) : Accumulator :=
  { numReviewedPrs := acc.numReviewedPrs + 1,
    numAdditions := acc.numAdditions + pr.additions,
    numDeletions := acc.numDeletions + pr.deletions,
    maxPrAdditions :=
      if pr.additions > acc.maxPrAdditions then pr.additions else acc.maxPrAdditions,
    maxPrNum :=
      if pr.additions > acc.maxPrAdditions then pr.number else acc.maxPrNum }

/-- The inner review loop (source lines 181-209).  Returns the updated
accumulator and the `stop_loop` flag: a matching review dated before the
cutoff sets the flag and breaks the loop. -/
def processReviews (username : String) (cutoff : DateYM) (pr : PullRequest) :
    Accumulator → List Review → Accumulator × Bool
  | acc, [] => (acc, false)
  | acc, r :: rest =>
    if reviewMatches username r then
      if dateQualifies r.submittedAt cutoff then
        processReviews username cutoff pr (countReview acc pr) rest
      else
        (acc, true)
    else
      processReviews username cutoff pr acc rest

/-- The outer PR loop (source lines 153-211), with the `stop_loop` check at
the top, the merged-before-cutoff `break`, and the empty-review `continue`.
State is (accumulator, stop_loop). -/
def processPulls (username : String) (cutoff : DateYM) :
    Accumulator × Bool → List PullRequest → Accumulator × Bool
  | s, [] => s
  | (acc, stop), pr :: rest =>
    if stop then (acc, stop)
    else if pr.merged && mergedBeforeCutoff pr.mergedAt cutoff then (acc, stop)
    else if pr.reviews.isEmpty then processPulls username cutoff (acc, stop) rest
    else processPulls username cutoff
      (processReviews username cutoff pr acc (pr.reviews)) rest

/-- The whole scan: run the PR loop from the all-zero accumulator and return
the final accumulator (the five printed quantities). -/
def collectStats (username : String) (cutoff : DateYM)
    (pulls : List PullRequest) : Accumulator :=
  (processPulls username cutoff (initAcc, false) pulls).1

/-- The sequence of counted (PR, review) events of the inner loop: one copy of
the PR per qualifying review, in loop order, together with the stop flag. -/
def reviewEvents (username : String) (cutoff : DateYM) (pr : PullRequest) :
    List Review → List PullRequest × Bool
  | [] => ([], false)
  | r :: rest =>
    if reviewMatches username r then
      if dateQualifies r.submittedAt cutoff then
        ((pr :: (reviewEvents username cutoff pr rest).1),
          (reviewEvents username cutoff pr rest).2)
      else ([], true)
    else reviewEvents username cutoff pr rest

/-- The sequence of counted (PR, review) events of the whole scan, one entry
per qualifying review that the loops actually count, in scan order. -/
def pullEvents (username : String) (cutoff : DateYM) :
    List PullRequest → List PullRequest
  | [] => []
  | pr :: rest =>
    if pr.merged && mergedBeforeCutoff pr.mergedAt cutoff then []
    else if (reviewEvents username cutoff pr (pr.reviews)).2 then
      (reviewEvents username cutoff pr (pr.reviews)).1
    else
      (reviewEvents username cutoff pr (pr.reviews)).1
        ++ pullEvents username cutoff rest

/-- Python `int(...)` applied to a string of decimal digits (the script only
feeds it slices of the `YYYYMM` argument). -/
def pyIntDigits (s : String) : Nat :=
  s.data.foldl (fun n ch => n * 10 + (ch.toNat - 48)) 0

/-- Python slice `s[a:b]` (for the in-range indices the script uses). -/
def pySlice (s : String) (a b : Nat) : String :=
  String.mk ((s.data.drop a).take (b - a))

/-- Python slice `s[a:]`. -/
def pySliceFrom (s : String) (a : Nat) : String :=
  String.mk (s.data.drop a)

/-- `start_year = int(args.start_date[0:4])` (source line 94). -/
def parsedStartYear (s : String) : Nat :=
  pyIntDigits (pySlice s 0 4)

/-- `start_month = int(args.start_date[5:])` (source line 95). -/
def parsedStartMonth (s : String) : Nat :=
  pyIntDigits (pySliceFrom s 5)

/-- The repository-argument check of `parse_command_line` (source line 72):
`assert "/" in args.repository` with the assert message (quote characters of
the original message elided).  Since the needle is the single character `/`,
Python substring membership is character membership. -/
def validateRepository (s : String) : Except String String :=
  if s.data.contains '/' then Except.ok s
  else Except.error "repository argument must be <org>/<repo>"

/-- Errors the external GitHub client can raise, as the script distinguishes
them: `BadCredentialsException`, not-found errors, anything else. -/
inductive ClientError
  | badCredentials
  | notFound (what : String)
  | other (msg : String)
deriving DecidableEq, Repr

/-- Outcome of the login step: a login name, a local `ValueError`, or an
uncaught client error propagating. -/
inductive LoginOutcome
  | loggedIn (login : String)
  | valueError (msg : String)
  | clientFailure (e : ClientError)
deriving DecidableEq, Repr

/-- The `try: ghub.get_user().login / except BadCredentialsException` block
(source lines 107-114): `BadCredentialsException` is intercepted and re-raised
as `ValueError("Bad Github authorization token!")`; every other client
outcome passes through unchanged. -/
def tryGetUserLogin (resp : Except ClientError String) : LoginOutcome :=
  match resp with
  | Except.ok l => LoginOutcome.loggedIn l
  | Except.error ClientError.badCredentials =>
      LoginOutcome.valueError "Bad Github authorization token!"
  | Except.error e => LoginOutcome.clientFailure e

/-- The external inputs the start of `main_script` consumes after argument
parsing: the outcome of the authentication call. -/
structure RunEnv where
  authResult : Except ClientError String
deriving Repr

/-- The order of the early steps of the run: `parse_command_line` (with its
repository assert) runs first, and only on success are the credential prompt
and the authentication call reached (source lines 89-114). -/
def runStart (repoArg : String) (env : RunEnv) : Except String LoginOutcome :=
  match validateRepository repoArg with
  | Except.error msg => Except.error msg
  | Except.ok _ => Except.ok (tryGetUserLogin env.authResult)

/-- The spec-level maximum tracker: fold step for the (max additions, PR
number) pair with strict-increase replacement. -/
def maxStep (p : Nat × Nat) (pr : PullRequest) : Nat × Nat :=
  if pr.additions > p.1 then (pr.additions, pr.number) else p

/-- The month immediately before a cutoff month (wrapping a January cutoff
to December of the previous year). -/
def prevMonth (d : DateYM) : DateYM :=
  if d.month = 1 then DateYM.mk (d.year - 1) 12 else DateYM.mk d.year (d.month - 1)

/-- Example cutoff 2023-06 for the concrete witnesses below. -/
def cutoffEx : DateYM := ⟨2023, 6⟩

/-- An in-range APPROVED review by alice (2023-07). -/
def rApproved1 : Review := ⟨"alice", "APPROVED", ⟨2023, 7⟩⟩

/-- An APPROVED review by alice exactly in the cutoff month (2023-06). -/
def rApproved2 : Review := ⟨"alice", "APPROVED", ⟨2023, 6⟩⟩

/-- A COMMENTED review by alice dated far before the cutoff. -/
def rCommentOld : Review := ⟨"alice", "COMMENTED", ⟨2020, 1⟩⟩

/-- A non-COMMENTED review by alice one month before the cutoff (2023-05). -/
def rOld : Review := ⟨"alice", "CHANGES_REQUESTED", ⟨2023, 5⟩⟩

/-- A PR with two qualifying reviews by alice. -/
def prTwoReviews : PullRequest :=
  ⟨10, true, ⟨2023, 8⟩, 100, 10, [rApproved1, rApproved2]⟩

/-- A contributing PR with zero additions, number 7. -/
def prZeroA : PullRequest := ⟨7, false, ⟨2023, 8⟩, 0, 3, [rApproved1]⟩

/-- A contributing PR with zero additions, number 8. -/
def prZeroB : PullRequest := ⟨8, false, ⟨2023, 8⟩, 0, 4, [rApproved1]⟩

/-- A contributing PR with 100 additions, number 7. -/
def prHundredA : PullRequest := ⟨7, false, ⟨2023, 8⟩, 100, 3, [rApproved1]⟩

/-- A contributing PR with 100 additions, number 8. -/
def prHundredB : PullRequest := ⟨8, false, ⟨2023, 8⟩, 100, 4, [rApproved1]⟩

/-- A PR merged before the cutoff (2023-05), which stops the outer loop. -/
def prMergedOld : PullRequest :=
  ⟨5, true, ⟨2023, 5⟩, 1000, 1000, [rApproved1]⟩

/-- A PR whose only alice review is COMMENTED, so nothing is counted. -/
def prCommentOnly : PullRequest := ⟨9, false, ⟨2023, 8⟩, 77, 66, [rCommentOld]⟩

/-- An APPROVED review by bob dated far before the cutoff. -/
def rBobOld : Review := ⟨"bob", "APPROVED", ⟨2019, 1⟩⟩

/-- A PR whose review list is an in-range alice review, then the pre-cutoff
alice review rOld, then another alice review: rOld aborts both loops. -/
def prAbort : PullRequest :=
  ⟨6, false, ⟨2023, 8⟩, 50, 5, [rApproved1, rOld, rApproved2]⟩

theorem processReviews_eq (username : String) (cutoff : DateYM) (pr : PullRequest) :
    ∀ (rs : List Review) (acc : Accumulator),
      processReviews username cutoff pr acc rs
        = ((reviewEvents username cutoff pr rs).1.foldl countReview acc,
           (reviewEvents username cutoff pr rs).2) := by
  intro rs
  induction rs with
  | nil => intro acc; rfl
  | cons r rest ih =>
    intro acc
    by_cases hm : reviewMatches username r = true
    · by_cases hd : dateQualifies r.submittedAt cutoff = true
      · simp [processReviews, reviewEvents, hm, hd, ih]
      · simp [processReviews, reviewEvents, hm, hd]
    · simp [processReviews, reviewEvents, hm, ih]

theorem processPulls_stopped (username : String) (cutoff : DateYM) :
    ∀ (l : List PullRequest) (acc : Accumulator),
      processPulls username cutoff (acc, true) l = (acc, true) := by
  intro l
  induction l with
  | nil => intro acc; rfl
  | cons pr rest ih => intro acc; simp [processPulls]

theorem processPulls_fst_eq (username : String) (cutoff : DateYM) :
    ∀ (l : List PullRequest) (acc : Accumulator),
      (processPulls username cutoff (acc, false) l).1
        = (pullEvents username cutoff l).foldl countReview acc := by
  intro l
  induction l with
  | nil => intro acc; rfl
  | cons pr rest ih =>
    intro acc
    by_cases hmb : (pr.merged && mergedBeforeCutoff pr.mergedAt cutoff) = true
    · simp [processPulls, pullEvents, hmb]
    · by_cases he : pr.reviews.isEmpty = true
      · have hnil : pr.reviews = [] := List.isEmpty_iff.mp he
        simp [processPulls, pullEvents, hmb, he, hnil, reviewEvents, ih]
      · rw [processPulls, pullEvents]
        simp only [hmb, he, if_neg, Bool.false_eq_true, if_false]
        rw [processReviews_eq]
        by_cases hs : (reviewEvents username cutoff pr (pr.reviews)).2 = true
        · simp [hs, processPulls_stopped]
        · simp [hs, ih, List.foldl_append]

theorem foldl_countReview_numReviewedPrs :
    ∀ (evs : List PullRequest) (acc : Accumulator),
      (evs.foldl countReview acc).numReviewedPrs
        = acc.numReviewedPrs + evs.length := by
  intro evs
  induction evs with
  | nil => intro acc; simp
  | cons pr rest ih =>
    intro acc
    simp [List.foldl_cons, ih, countReview]
    omega

theorem foldl_countReview_numAdditions :
    ∀ (evs : List PullRequest) (acc : Accumulator),
      (evs.foldl countReview acc).numAdditions
        = acc.numAdditions + (evs.map PullRequest.additions).sum := by
  intro evs
  induction evs with
  | nil => intro acc; simp
  | cons pr rest ih =>
    intro acc
    simp [List.foldl_cons, ih, countReview]
    omega

theorem foldl_countReview_numDeletions :
    ∀ (evs : List PullRequest) (acc : Accumulator),
      (evs.foldl countReview acc).numDeletions
        = acc.numDeletions + (evs.map PullRequest.deletions).sum := by
  intro evs
  induction evs with
  | nil => intro acc; simp
  | cons pr rest ih =>
    intro acc
    simp [List.foldl_cons, ih, countReview]
    omega

theorem foldl_countReview_maxPair :
    ∀ (evs : List PullRequest) (acc : Accumulator),
      ((evs.foldl countReview acc).maxPrAdditions,
        (evs.foldl countReview acc).maxPrNum)
        = evs.foldl maxStep (acc.maxPrAdditions, acc.maxPrNum) := by
  intro evs
  induction evs with
  | nil => intro acc; rfl
  | cons pr rest ih =>
    intro acc
    rw [List.foldl_cons, List.foldl_cons, ih]
    by_cases h : pr.additions > acc.maxPrAdditions
    · simp [countReview, maxStep, h]
    · simp [countReview, maxStep, h]

theorem maxStep_fst_le :
    ∀ (evs : List PullRequest) (m n : Nat), m ≤ (evs.foldl maxStep (m, n)).1 := by
  intro evs
  induction evs with
  | nil => intro m n; simp
  | cons pr rest ih =>
    intro m n
    rw [List.foldl_cons]
    by_cases h : pr.additions > m
    · simp only [maxStep, if_pos h]
      exact le_trans (le_of_lt h) (ih pr.additions pr.number)
    · simp only [maxStep, if_neg h]
      exact ih m n

theorem maxStep_fst_fixed :
    ∀ (evs : List PullRequest) (m n : Nat),
      (evs.foldl maxStep (m, n)).1 = m → evs.foldl maxStep (m, n) = (m, n) := by
  intro evs
  induction evs with
  | nil => intro m n _; rfl
  | cons pr rest ih =>
    intro m n hfix
    rw [List.foldl_cons] at hfix ⊢
    by_cases h : pr.additions > m
    · exfalso
      simp only [maxStep, if_pos h] at hfix
      have hle := maxStep_fst_le rest pr.additions pr.number
      omega
    · simp only [maxStep, if_neg h] at hfix ⊢
      exact ih m n hfix

theorem maxStep_find :
    ∀ (evs : List PullRequest) (m n : Nat),
      m < (evs.foldl maxStep (m, n)).1 →
      (evs.find? (fun pr => pr.additions == (evs.foldl maxStep (m, n)).1)).map
          PullRequest.number = some (evs.foldl maxStep (m, n)).2 := by
  intro evs
  induction evs with
  | nil => intro m n h; simp at h
  | cons pr rest ih =>
    intro m n hlt
    rw [List.foldl_cons] at hlt ⊢
    by_cases h : pr.additions > m
    · simp only [maxStep, if_pos h] at hlt ⊢
      by_cases h2 : pr.additions < (rest.foldl maxStep (pr.additions, pr.number)).1
      · rw [List.find?_cons_of_neg]
        · exact ih pr.additions pr.number h2
        · simp
          omega
      · have hle := maxStep_fst_le rest pr.additions pr.number
        have heq : (rest.foldl maxStep (pr.additions, pr.number)).1 = pr.additions := by
          omega
        have hfix := maxStep_fst_fixed rest pr.additions pr.number heq
        rw [hfix]
        rw [List.find?_cons_of_pos]
        · rfl
        · simp
    · simp only [maxStep, if_neg h] at hlt ⊢
      rw [List.find?_cons_of_neg]
      · exact ih m n hlt
      · simp
        omega

/-- C1: counterexample.  `prTwoReviews` is the only PR of the scan and has two
qualifying (same-reviewer, non-COMMENTED, in-range) reviews.  The distinct
PRs with at least one counted review are exactly this one PR, with additions
100 and deletions 10, so the claimed per-PR sums are 100 and 10; the code
produces 200 and 20 because it adds `pr.additions` and `pr.deletions` once
per qualifying review (source lines 190-197), not once per PR. -/
theorem C1_counterexample :
    (pullEvents "alice" cutoffEx [prTwoReviews]).length = 2
    ∧ prTwoReviews.additions = 100 ∧ prTwoReviews.deletions = 10
    ∧ (collectStats "alice" cutoffEx [prTwoReviews]).numAdditions = 200
    ∧ (collectStats "alice" cutoffEx [prTwoReviews]).numDeletions = 20 := by
  decide

/-- C1 (amended): after a full scan, totalAdditions (resp. totalDeletions)
equals the sum of `additions` (resp. `deletions`) over the counted
(PR, review) events: each PR contributes once per qualifying counted review,
so a PR with several qualifying reviews by the same reviewer contributes
several times.  reviewedPrCount is the number of those events. -/
theorem C1_amended_totals (username : String) (cutoff : DateYM)
    (pulls : List PullRequest) :
    (collectStats username cutoff pulls).numAdditions
        = ((pullEvents username cutoff pulls).map PullRequest.additions).sum
    ∧ (collectStats username cutoff pulls).numDeletions
        = ((pullEvents username cutoff pulls).map PullRequest.deletions).sum
    ∧ (collectStats username cutoff pulls).numReviewedPrs
        = (pullEvents username cutoff pulls).length := by
  unfold collectStats
  rw [processPulls_fst_eq]
  refine ⟨?_, ?_, ?_⟩
  · rw [foldl_countReview_numAdditions]; simp [initAcc]
  · rw [foldl_countReview_numDeletions]; simp [initAcc]
  · rw [foldl_countReview_numReviewedPrs]; simp [initAcc]

/-- C2: code bug.  For the well-formed six-digit start date 202312 the script
computes `start_year = int(s[0:4]) = 2023` but `start_month = int(s[5:])`,
which reads only the final character and yields 2.  The last two digits
(slice `[4:]`) have value 12, which is what the YYYYMM contract of the CLI
help demands. -/
theorem C2_code_eval :
    parsedStartYear "202312" = 2023
    ∧ parsedStartMonth "202312" = 2
    ∧ pyIntDigits (pySliceFrom "202312" 4) = 12
    ∧ parsedStartMonth "202312" ≠ 12 := by
  decide

/-- C6: if reviewedPrCount is zero at the end of the scan, then
totalAdditions, totalDeletions and maxAdditions are all zero; the scan is a
total function, so a zero-match run returns this all-zero accumulator
normally rather than raising. -/
theorem C6_zero_reviews_zero_totals (username : String) (cutoff : DateYM)
    (pulls : List PullRequest)
    (h : (collectStats username cutoff pulls).numReviewedPrs = 0) :
    (collectStats username cutoff pulls).numAdditions = 0
    ∧ (collectStats username cutoff pulls).numDeletions = 0
    ∧ (collectStats username cutoff pulls).maxPrAdditions = 0 := by
  have h1 : (collectStats username cutoff pulls).numReviewedPrs
      = (pullEvents username cutoff pulls).length := by
    unfold collectStats
    rw [processPulls_fst_eq, foldl_countReview_numReviewedPrs]
    simp [initAcc]
  have hlen : (pullEvents username cutoff pulls).length = 0 := by omega
  have hev : pullEvents username cutoff pulls = [] :=
    List.length_eq_zero.mp hlen
  unfold collectStats
  rw [processPulls_fst_eq, hev]
  simp [initAcc]

theorem C6_zero_reviews_zero_totals_witness :
    (collectStats "alice" cutoffEx [prCommentOnly]).numReviewedPrs = 0
    ∧ ((collectStats "alice" cutoffEx [prCommentOnly]).numAdditions = 0
       ∧ (collectStats "alice" cutoffEx [prCommentOnly]).numDeletions = 0
       ∧ (collectStats "alice" cutoffEx [prCommentOnly]).maxPrAdditions = 0) :=
  ⟨by decide,
    C6_zero_reviews_zero_totals "alice" cutoffEx [prCommentOnly] (by decide)⟩

/-- C7: the client's generic bad-credentials error is intercepted by the
try/except of the login step and re-raised as a ValueError with the fixed
message, and no outcome of the login step ever propagates the raw
bad-credentials client error itself. -/
theorem C7_auth_error_intercepted :
    tryGetUserLogin (Except.error ClientError.badCredentials)
        = LoginOutcome.valueError "Bad Github authorization token!"
    ∧ ∀ resp : Except ClientError String,
        tryGetUserLogin resp
          ≠ LoginOutcome.clientFailure ClientError.badCredentials := by
  refine ⟨rfl, ?_⟩
  intro resp
  match resp with
  | Except.ok l => simp [tryGetUserLogin]
  | Except.error ClientError.badCredentials => simp [tryGetUserLogin]
  | Except.error (ClientError.notFound w) => simp [tryGetUserLogin]
  | Except.error (ClientError.other m) => simp [tryGetUserLogin]

/-- C8: counterexample.  The identifier a/b/c contains two separator
characters, hence not exactly one, yet the assert of `parse_command_line`
(which only checks that the separator occurs somewhere) accepts it. -/
theorem C8_counterexample :
    ((("a/b/c").data.filter (fun ch => ch == '/')).length = 2)
    ∧ validateRepository "a/b/c" = Except.ok "a/b/c" :=
  ⟨by decide, rfl⟩

/-- C8 (amended): an identifier with no separator at all is rejected by the
eager assert with the message naming the expected org/repo format, and the
run outcome is then independent of the authentication environment (the
credential prompt and the network are never reached); but the check only
requires at least one separator, so an identifier with several separators is
not rejected. -/
theorem C8_amended_no_separator (s : String) (env1 env2 : RunEnv)
    (h : s.data.contains '/' = false) :
    runStart s env1 = Except.error "repository argument must be <org>/<repo>"
    ∧ runStart s env1 = runStart s env2 := by
  have hmem : '/' ∉ s.data := by simpa using h
  have hv : validateRepository s
      = Except.error "repository argument must be <org>/<repo>" := by
    simp [validateRepository, hmem]
  exact ⟨by simp [runStart, hv], by simp [runStart, hv]⟩

theorem C8_amended_no_separator_witness :
    ("norepo").data.contains '/' = false
    ∧ (runStart "norepo" ⟨Except.error ClientError.badCredentials⟩
          = Except.error "repository argument must be <org>/<repo>"
       ∧ runStart "norepo" ⟨Except.error ClientError.badCredentials⟩
          = runStart "norepo" ⟨Except.ok "alice"⟩) :=
  ⟨by decide,
    C8_amended_no_separator "norepo" ⟨Except.error ClientError.badCredentials⟩
      ⟨Except.ok "alice"⟩ (by decide)⟩

/-- C3: a review by the target reviewer with state different from COMMENTED
is counted exactly when its reference-timezone (year, month) is at least the
cutoff in lexicographic order: the in-range test of the loop is equivalent to
that comparison, an in-range review performs the counting step and the loop
continues on the rest, an out-of-range one counts nothing and aborts with the
stop flag; a date exactly in the cutoff month qualifies and the month
immediately before does not. -/
theorem C3_cutoff_comparison (username : String) (cutoff : DateYM)
    (pr : PullRequest) (acc : Accumulator) (r : Review) (rest : List Review)
    (hl : r.reviewerLogin = username) (hs : r.state ≠ "COMMENTED") :
    (dateQualifies r.submittedAt cutoff = true
       ↔ (cutoff.year < r.submittedAt.year
           ∨ (r.submittedAt.year = cutoff.year
              ∧ cutoff.month ≤ r.submittedAt.month)))
    ∧ (dateQualifies r.submittedAt cutoff = true →
        processReviews username cutoff pr acc (r :: rest)
          = processReviews username cutoff pr (countReview acc pr) rest)
    ∧ (dateQualifies r.submittedAt cutoff = false →
        processReviews username cutoff pr acc (r :: rest) = (acc, true))
    ∧ dateQualifies cutoff cutoff = true
    ∧ dateQualifies (prevMonth cutoff) cutoff = false := by
  have hm : reviewMatches username r = true := by
    simp [reviewMatches, hl, hs]
  refine ⟨?_, ?_, ?_, ?_, ?_⟩
  · simp only [dateQualifies, decide_eq_true_eq]
  · intro hq
    simp [processReviews, hm, hq]
  · intro hq
    simp [processReviews, hm, hq]
  · simp only [dateQualifies, decide_eq_true_eq]
    exact Or.inr ⟨trivial, le_refl _⟩
  · by_cases h1 : cutoff.month = 1
    · simp only [prevMonth, if_pos h1, dateQualifies, decide_eq_false_iff_not]
      omega
    · simp only [prevMonth, if_neg h1, dateQualifies, decide_eq_false_iff_not]
      omega

theorem C3_cutoff_comparison_witness :
    (dateQualifies rApproved2.submittedAt cutoffEx = true
       ↔ (cutoffEx.year < rApproved2.submittedAt.year
           ∨ (rApproved2.submittedAt.year = cutoffEx.year
              ∧ cutoffEx.month ≤ rApproved2.submittedAt.month)))
    ∧ (dateQualifies rApproved2.submittedAt cutoffEx = true →
        processReviews "alice" cutoffEx prHundredA initAcc (rApproved2 :: [])
          = processReviews "alice" cutoffEx prHundredA
              (countReview initAcc prHundredA) [])
    ∧ (dateQualifies rApproved2.submittedAt cutoffEx = false →
        processReviews "alice" cutoffEx prHundredA initAcc (rApproved2 :: [])
          = (initAcc, true))
    ∧ dateQualifies cutoffEx cutoffEx = true
    ∧ dateQualifies (prevMonth cutoffEx) cutoffEx = false :=
  C3_cutoff_comparison "alice" cutoffEx prHundredA initAcc rApproved2 []
    rfl (by decide)

/-- C4: if some PR of the input sequence is merged and its reference-timezone
merge (year, month) is lexicographically below the cutoff, the whole scan
yields exactly the state of scanning the PRs before it, whatever state the
loop is in when it gets there: that PR's reviews and every later PR
contribute nothing to the accumulator. -/
theorem C4_merge_break (username : String) (cutoff : DateYM)
    (pr : PullRequest) (l2 : List PullRequest)
    (hm : pr.merged = true)
    (hd : mergedBeforeCutoff pr.mergedAt cutoff = true) :
    ∀ (l1 : List PullRequest) (s : Accumulator × Bool),
      processPulls username cutoff s (l1 ++ pr :: l2)
        = processPulls username cutoff s l1 := by
  intro l1
  induction l1 with
  | nil =>
    intro s
    obtain ⟨acc, stop⟩ := s
    cases stop with
    | false => simp [processPulls, hm, hd]
    | true => simp [processPulls]
  | cons q rest ih =>
    intro s
    obtain ⟨acc, stop⟩ := s
    cases stop with
    | false =>
      by_cases hq : (q.merged && mergedBeforeCutoff q.mergedAt cutoff) = true
      · simp [processPulls, hq]
      · by_cases he : q.reviews.isEmpty = true
        · simp [processPulls, hq, he, ih]
        · simp [processPulls, hq, he, ih]
    | true => simp [processPulls]

theorem C4_merge_break_witness :
    prMergedOld.merged = true
    ∧ mergedBeforeCutoff prMergedOld.mergedAt cutoffEx = true
    ∧ processPulls "alice" cutoffEx (initAcc, false)
        ([prHundredA] ++ prMergedOld :: [prHundredB])
      = processPulls "alice" cutoffEx (initAcc, false) [prHundredA] :=
  ⟨rfl, by decide,
    C4_merge_break "alice" cutoffEx prMergedOld [prHundredB] rfl (by decide)
      [prHundredA] (initAcc, false)⟩

theorem processReviews_trunc (username : String) (cutoff : DateYM)
    (pr : PullRequest) (r : Review)
    (hl : r.reviewerLogin = username) (hs : r.state ≠ "COMMENTED")
    (hd : dateQualifies r.submittedAt cutoff = false) :
    ∀ (rs1 rs2 : List Review) (acc : Accumulator),
      processReviews username cutoff pr acc (rs1 ++ r :: rs2)
        = processReviews username cutoff pr acc (rs1 ++ [r])
      ∧ (processReviews username cutoff pr acc (rs1 ++ [r])).2 = true := by
  have hm : reviewMatches username r = true := by
    simp [reviewMatches, hl, hs]
  intro rs1
  induction rs1 with
  | nil =>
    intro rs2 acc
    constructor
    · simp [processReviews, hm, hd]
    · simp [processReviews, hm, hd]
  | cons r1 rest ih =>
    intro rs2 acc
    by_cases hm1 : reviewMatches username r1 = true
    · by_cases hd1 : dateQualifies r1.submittedAt cutoff = true
      · constructor
        · simp only [List.cons_append, processReviews, hm1, hd1, if_pos]
          exact (ih rs2 (countReview acc pr)).1
        · simp only [List.cons_append, processReviews, hm1, hd1, if_pos]
          exact (ih rs2 (countReview acc pr)).2
      · constructor
        · simp [processReviews, hm1, hd1]
        · simp [processReviews, hm1, hd1]
    · constructor
      · simp only [List.cons_append, processReviews, hm1]
        simp only [Bool.not_eq_true] at hm1
        simp only [hm1, Bool.false_eq_true, if_false]
        exact (ih rs2 acc).1
      · simp only [List.cons_append, processReviews, hm1]
        simp only [Bool.not_eq_true] at hm1
        simp only [hm1, Bool.false_eq_true, if_false]
        exact (ih rs2 acc).2

/-- C5: whenever the review list of a PR holds a review by the target
reviewer with state different from COMMENTED dated before the cutoff, both
loops terminate there: the inner loop computes the same result as if the
reviews after the triggering one were absent (they are never inspected), its
stop flag is set, and the outer loop computes the same result as if the PRs
after this one were absent (they are never inspected). -/
theorem C5_abort_both_loops (username : String) (cutoff : DateYM)
    (acc : Accumulator) (pr0 : PullRequest) (r : Review)
    (rs1 rs2 : List Review) (l2 : List PullRequest)
    (hrev : pr0.reviews = rs1 ++ r :: rs2)
    (hl : r.reviewerLogin = username) (hs : r.state ≠ "COMMENTED")
    (hd : dateQualifies r.submittedAt cutoff = false) :
    processReviews username cutoff pr0 acc (rs1 ++ r :: rs2)
      = processReviews username cutoff pr0 acc (rs1 ++ [r])
    ∧ (processReviews username cutoff pr0 acc (rs1 ++ r :: rs2)).2 = true
    ∧ processPulls username cutoff (acc, false) (pr0 :: l2)
      = processPulls username cutoff (acc, false) [pr0] := by
  have htr := processReviews_trunc username cutoff pr0 r hl hs hd rs1 rs2 acc
  have hflag : (processReviews username cutoff pr0 acc (rs1 ++ r :: rs2)).2
      = true := by
    rw [htr.1]; exact htr.2
  refine ⟨htr.1, hflag, ?_⟩
  have hne : pr0.reviews.isEmpty = false := by
    rw [hrev]
    cases rs1 <;> simp
  have hflag0 : (processReviews username cutoff pr0 acc (pr0.reviews)).2
      = true := by
    rw [hrev]; exact hflag
  have hp : processReviews username cutoff pr0 acc (pr0.reviews)
      = ((processReviews username cutoff pr0 acc (pr0.reviews)).1, true) := by
    rw [← hflag0]
  by_cases hq : (pr0.merged && mergedBeforeCutoff pr0.mergedAt cutoff) = true
  · simp [processPulls, hq]
  · simp only [processPulls, hq, Bool.false_eq_true, if_false, hne,
      Bool.false_eq_true, if_false]
    rw [hp, processPulls_stopped]

theorem C5_abort_both_loops_witness :
    processReviews "alice" cutoffEx prAbort initAcc
        ([rApproved1] ++ rOld :: [rApproved2])
      = processReviews "alice" cutoffEx prAbort initAcc ([rApproved1] ++ [rOld])
    ∧ (processReviews "alice" cutoffEx prAbort initAcc
        ([rApproved1] ++ rOld :: [rApproved2])).2 = true
    ∧ processPulls "alice" cutoffEx (initAcc, false) (prAbort :: [prHundredB])
      = processPulls "alice" cutoffEx (initAcc, false) [prAbort] :=
  C5_abort_both_loops "alice" cutoffEx initAcc prAbort rOld
    [rApproved1] [rApproved2] [prHundredB] rfl rfl (by decide) (by decide)

/-- C9: counterexample.  The PRs numbered 7 and 8 each contribute one counted
review and tie for the maximum additions value, which here is 0; the claim
says maxAdditionsPrNumber should be 7, the number of the first such PR in
scan order, but the strict-increase update never fires on equal values, so
the field keeps its initial 0. -/
theorem C9_counterexample :
    (pullEvents "alice" cutoffEx [prZeroA, prZeroB]).length = 2
    ∧ prZeroA.additions
        = (collectStats "alice" cutoffEx [prZeroA, prZeroB]).maxPrAdditions
    ∧ prZeroB.additions
        = (collectStats "alice" cutoffEx [prZeroA, prZeroB]).maxPrAdditions
    ∧ prZeroA.number = 7
    ∧ (collectStats "alice" cutoffEx [prZeroA, prZeroB]).maxPrNum ≠ 7 := by
  decide

/-- C9 (amended): the maximum-additions pair is replaced only on a strict
increase, so when the final maximum is positive, maxAdditionsPrNumber is the
number of the first counted PR in scan order achieving that maximum (ties
keep the earlier, newest-created PR); when no review qualifies, and more
generally whenever the final maximum is zero, maxAdditionsPrNumber remains 0
(0 is not a real PR number). -/
theorem C9_amended_max_tracking (username : String) (cutoff : DateYM)
    (pulls : List PullRequest) :
    (pullEvents username cutoff pulls = [] →
       (collectStats username cutoff pulls).maxPrAdditions = 0
       ∧ (collectStats username cutoff pulls).maxPrNum = 0)
    ∧ (0 < (collectStats username cutoff pulls).maxPrAdditions →
        ((pullEvents username cutoff pulls).find?
            (fun pr => pr.additions
              == (collectStats username cutoff pulls).maxPrAdditions)).map
          PullRequest.number
          = some (collectStats username cutoff pulls).maxPrNum)
    ∧ ((collectStats username cutoff pulls).maxPrAdditions = 0 →
        (collectStats username cutoff pulls).maxPrNum = 0) := by
  have hcoll : collectStats username cutoff pulls
      = (pullEvents username cutoff pulls).foldl countReview initAcc := by
    unfold collectStats
    rw [processPulls_fst_eq]
  have hpair := foldl_countReview_maxPair (pullEvents username cutoff pulls) initAcc
  have hm1 : ((pullEvents username cutoff pulls).foldl countReview initAcc).maxPrAdditions
      = ((pullEvents username cutoff pulls).foldl maxStep (0, 0)).1 :=
    congrArg Prod.fst hpair
  have hm2 : ((pullEvents username cutoff pulls).foldl countReview initAcc).maxPrNum
      = ((pullEvents username cutoff pulls).foldl maxStep (0, 0)).2 :=
    congrArg Prod.snd hpair
  simp only [hcoll, hm1, hm2]
  refine ⟨?_, ?_, ?_⟩
  · intro h
    rw [h]
    exact ⟨rfl, rfl⟩
  · intro h
    exact maxStep_find (pullEvents username cutoff pulls) 0 0 h
  · intro h
    have hfix := maxStep_fst_fixed (pullEvents username cutoff pulls) 0 0 h
    rw [hfix]

theorem C9_amended_max_tracking_witness :
    0 < (collectStats "alice" cutoffEx [prHundredA, prHundredB]).maxPrAdditions
    ∧ ((pullEvents "alice" cutoffEx [prHundredA, prHundredB]).find?
          (fun pr => pr.additions
            == (collectStats "alice" cutoffEx
                  [prHundredA, prHundredB]).maxPrAdditions)).map
        PullRequest.number
        = some (collectStats "alice" cutoffEx [prHundredA, prHundredB]).maxPrNum :=
  ⟨by decide,
    (C9_amended_max_tracking "alice" cutoffEx [prHundredA, prHundredB]).2.1
      (by decide)⟩

/-- C10: a review whose reviewer login differs from the target reviewer, or
whose state is COMMENTED, is skipped without any effect: the loop result on
it plus the remaining reviews equals the result on the remaining reviews
alone, whatever its submission date is (the date is never examined); and
whenever the inner loop does set the stop flag, the review list contains a
non-COMMENTED review by the target reviewer dated before the cutoff, so only
such a review can abort the loops. -/
theorem C10_only_matching_reviews_abort (username : String) (cutoff : DateYM)
    (pr : PullRequest) (acc : Accumulator) (r : Review) (rest : List Review)
    (h : r.reviewerLogin ≠ username ∨ r.state = "COMMENTED") :
    processReviews username cutoff pr acc (r :: rest)
      = processReviews username cutoff pr acc rest
    ∧ (∀ (rs : List Review) (a : Accumulator),
        (processReviews username cutoff pr a rs).2 = true →
        ∃ r2 ∈ rs, r2.reviewerLogin = username ∧ r2.state ≠ "COMMENTED"
          ∧ dateQualifies r2.submittedAt cutoff = false) := by
  have hm : reviewMatches username r = false := by
    simp only [reviewMatches, decide_eq_false_iff_not]
    tauto
  refine ⟨by simp [processReviews, hm], ?_⟩
  intro rs
  induction rs with
  | nil =>
    intro a hstop
    simp [processReviews] at hstop
  | cons r1 rest1 ih =>
    intro a hstop
    by_cases hm1 : reviewMatches username r1 = true
    · by_cases hd1 : dateQualifies r1.submittedAt cutoff = true
      · simp only [processReviews, hm1, hd1, if_pos] at hstop
        obtain ⟨r2, hr2, hprops⟩ := ih (countReview a pr) hstop
        exact ⟨r2, List.mem_cons_of_mem _ hr2, hprops⟩
      · have hmatch : r1.reviewerLogin = username ∧ r1.state ≠ "COMMENTED" := by
          simpa [reviewMatches, decide_eq_true_eq] using hm1
        rw [Bool.not_eq_true] at hd1
        exact ⟨r1, List.mem_cons_self _ _, hmatch.1, hmatch.2, hd1⟩
    · rw [Bool.not_eq_true] at hm1
      simp only [processReviews, hm1, Bool.false_eq_true, if_false] at hstop
      obtain ⟨r2, hr2, hprops⟩ := ih a hstop
      exact ⟨r2, List.mem_cons_of_mem _ hr2, hprops⟩

theorem C10_only_matching_reviews_abort_witness :
    (processReviews "alice" cutoffEx prHundredA initAcc (rBobOld :: [rApproved1])
      = processReviews "alice" cutoffEx prHundredA initAcc [rApproved1])
    ∧ (∃ r2 ∈ [rOld], r2.reviewerLogin = "alice" ∧ r2.state ≠ "COMMENTED"
        ∧ dateQualifies r2.submittedAt cutoffEx = false) :=
  ⟨(C10_only_matching_reviews_abort "alice" cutoffEx prHundredA initAcc rBobOld
      [rApproved1] (Or.inl (by decide))).1,
   (C10_only_matching_reviews_abort "alice" cutoffEx prHundredA initAcc rBobOld
      [rApproved1] (Or.inl (by decide))).2 [rOld] initAcc (by decide)⟩
